import Mathlib

/-!
# kube-thing-controller: a shallow embedding of `main.go`

The controller watches one ConfigMap through a shared informer and logs its
lifecycle.  The handlers are embedded as computations over an explicit world
(the controller value, the klog output, a clock); a Go panic and a receive that
never completes are explicit failure outcomes.
-/

namespace KubeThing

/-! ## Data model -/

/-- One byte of a Go string. -/
abbrev Byte := Fin 256

/-- A Go `string`: a sequence of bytes, with no promise of being valid UTF-8. -/
abbrev GoString := List Byte

/-- The fields of `corev1.ConfigMap` that `main.go` reads (`Namespace`, `Name`,
`ResourceVersion`, `Data`) together with two it never reads.  `Data` lists the
entries of the Go map in the order in which `range` visits them. -/
structure ConfigMap where
  Namespace : GoString
  Name : GoString
  ResourceVersion : GoString
  Data : List (GoString × GoString)
  UID : GoString
  BinaryData : List (GoString × GoString)
deriving DecidableEq, Repr

/-- The dynamic values an `interface{}` argument of an informer callback can hold:
a `*corev1.ConfigMap` (possibly a nil pointer), a `cache.DeletedFinalStateUnknown`
tombstone wrapping the last known object under its key, or the nil interface. -/
inductive Obj where
  | configMap (p : Option ConfigMap)
  | deletedFinalStateUnknown (key : GoString) (obj : Obj)
  | nil
deriving DecidableEq, Repr

/-- The run-time panics the embedded code can raise. -/
inductive Panic where
  | typeAssertion
  | nilDereference
  | sliceBounds
deriving DecidableEq, Repr

/-- Ways in which a computation fails to return. -/
inductive Stop where
  | panic (p : Panic)
  | blockedForever
deriving DecidableEq, Repr

/-- An argument of a formatted log call. -/
inductive Arg where
  | str (s : GoString)
  | int (n : Int)
deriving DecidableEq, Repr

/-- One call of the logger: `klog.Infof(format, args...)` or `klog.Info(msg)`. -/
inductive LogCall where
  | infof (format : String) (args : List Arg)
  | info (msg : String)
deriving DecidableEq, Repr

/-- A duration in nanoseconds, as Go's `time.Duration`. -/
abbrev Duration := Int

/-- Go's `time.Second`. -/
def Second : Duration := 1000000000

/-- The constant `defaultResyncPeriod = 30 * time.Second`. -/
def defaultResyncPeriod : Duration := 30 * Second

/-- A selector value of `k8s.io/apimachinery/pkg/fields`, identified by what the
list/watch sends to the API server for it: its rendered string. -/
structure Selector where
  rendered : GoString
deriving DecidableEq, Repr

/-- The three callbacks of `cache.ResourceEventHandlerFuncs`. -/
inductive Callback where
  | handleAdd
  | handleUpdate
  | handleDelete
deriving DecidableEq, Repr

/-- What `cache.NewListWatchFromClient` is given. -/
structure ListWatch where
  resource : String
  namespace_ : GoString
  fieldSelector : Selector
deriving DecidableEq, Repr

/-- What `cache.NewSharedIndexInformer` is given, and the handlers added to it. -/
structure Informer where
  listWatcher : ListWatch
  resyncPeriod : Duration
  addFunc : Option Callback
  updateFunc : Option Callback
  deleteFunc : Option Callback
deriving DecidableEq, Repr

/-- The `Controller` struct; `clientset` is an opaque handle. -/
structure Controller where
  clientset : Nat
  namespace_ : GoString
  configMapName : GoString
  informer : Informer
deriving DecidableEq, Repr

/-- Everything a method of the controller can change: the controller itself,
the log written so far, the current instant, and whether the goroutine running
the informer has been started. -/
structure World where
  controller : Controller
  log : List LogCall
  now : Nat
  informerRunning : Bool
deriving DecidableEq, Repr

/-- The functions of `k8s.io/apimachinery/pkg/fields` that `NewController` calls.
The package is not part of this repository, so they are parameters; a failure
of `ParseSelectorOrDie` is the panic with which it dies. -/
structure FieldsPkg where
  OneTermEqualSelector : GoString → GoString → Selector
  SelectorString : Selector → GoString
  ParseSelectorOrDie : GoString → Except Stop Selector

/-- A `*rest.Config`, reduced to its host; `none` is the nil pointer. -/
structure RestConfig where
  Host : GoString
deriving DecidableEq, Repr

/-- A Go `error`: `none` is nil, otherwise the message. -/
abbrev GoError := Option String

/-- The two configuration loaders `buildConfig` chooses between
(`clientcmd.BuildConfigFromFlags` and `rest.InClusterConfig`), as parameters:
what each returns in the environment the process runs in. -/
structure Loaders where
  BuildConfigFromFlags : GoString → GoString → Option RestConfig × GoError
  InClusterConfig : Option RestConfig × GoError

/-- A call of one of the loaders. -/
inductive LoaderCall where
  | buildConfigFromFlags (masterUrl kubeconfigPath : GoString)
  | inClusterConfig
deriving DecidableEq, Repr

/-- A `context.Context` as `Run` sees it: the instant at which its `Done()`
channel is closed, or `none` when it never is. -/
structure Context where
  cancelAt : Option Nat
deriving DecidableEq, Repr

/-- Computations of the embedded program. -/
abbrev M := StateT World (Except Stop)

/-! ## Primitives -/

/-- Effect of `klog.Infof`: one more formatted call at the end of the log. -/
def klogInfof (format : String) (args : List Arg) : M Unit :=
  modify fun w => { w with log := w.log ++ [LogCall.infof format args] }

/-- Effect of `klog.Info`. -/
def klogInfo (msg : String) : M Unit :=
  modify fun w => { w with log := w.log ++ [LogCall.info msg] }

/-- The unchecked type assertion `obj.(*corev1.ConfigMap)`: it yields the pointer
when the dynamic type is `*corev1.ConfigMap` and panics otherwise. -/
def assertConfigMap : Obj → M (Option ConfigMap)
  | .configMap p => pure p
  | .deletedFinalStateUnknown _ _ => throw (.panic .typeAssertion)
  | .nil => throw (.panic .typeAssertion)

/-- Reading a field through a `*corev1.ConfigMap`: panics on the nil pointer. -/
def deref : Option ConfigMap → M ConfigMap
  | some cm => pure cm
  | none => throw (.panic .nilDereference)

/-- The statement `go c.informer.Run(ctx.Done())`: the informer goroutine is started. -/
def goInformerRun : M Unit :=
  modify fun w => { w with informerRunning := true }

/-- The call `cache.WaitForCacheSync(ctx.Done(), c.informer.HasSynced)`, taken
as its outcome: it returns `synced` after `waited` units of time. -/
def waitForCacheSync (synced : Bool) (waited : Nat) : M Bool := do
  modify fun w => { w with now := w.now + waited }
  pure synced

/-- The receive `<-ctx.Done()`: it completes once the channel is closed, at the
instant of cancellation or at once if that is already past, and never completes
when the context is never cancelled. -/
def recvDone (ctx : Context) : M Unit :=
  match ctx.cancelAt with
  | some t => modify fun w => { w with now := max w.now t }
  | none => throw .blockedForever

/-- The slice expression `s[:hi]` on a string: panics when `hi > len(s)`. -/
def sliceTo (s : GoString) (hi : Nat) : M GoString :=
  if hi ≤ s.length then pure (s.take hi) else throw (.panic .sliceBounds)

/-- The three bytes of the literal `"..."`. -/
def ellipsis : GoString := [46, 46, 46]

/-! ## The handlers -/

/-- The body of the `range cm.Data` loop of `logConfigMapData`, over the
entries still to be visited. -/
def logEntries : List (GoString × GoString) → M Unit
  | [] => pure ()
  | (key, value) :: rest => do
    let mut displayValue := value
    if value.length > 100 then
      displayValue := (← sliceTo value 100) ++ ellipsis
    klogInfof "    %s: %s" [.str key, .str displayValue]
    logEntries rest

/-- `Controller.logConfigMapData`. -/
def logConfigMapData (cm : ConfigMap) : M Unit := do
  klogInfof "  ResourceVersion: %s" [.str cm.ResourceVersion]
  klogInfof "  Data entries: %d" [.int cm.Data.length]
  logEntries cm.Data

/-- `Controller.handleAdd`. -/
def handleAdd (obj : Obj) : M Unit := do
  let cm ← deref (← assertConfigMap obj)
  klogInfof "ConfigMap ADDED: %s/%s" [.str cm.Namespace, .str cm.Name]
  logConfigMapData cm

/-- `Controller.handleUpdate`. -/
def handleUpdate (oldObj newObj : Obj) : M Unit := do
  let oldCM ← assertConfigMap oldObj
  let newCM ← assertConfigMap newObj
  let oldCM ← deref oldCM
  let newCM ← deref newCM
  if oldCM.ResourceVersion = newCM.ResourceVersion then
    return
  klogInfof "ConfigMap UPDATED: %s/%s" [.str newCM.Namespace, .str newCM.Name]
  logConfigMapData newCM

/-- `Controller.handleDelete`. -/
def handleDelete (obj : Obj) : M Unit := do
  let cm ← deref (← assertConfigMap obj)
  klogInfof "ConfigMap DELETED: %s/%s" [.str cm.Namespace, .str cm.Name]

/-- The literal `"metadata.name"`. -/
def metadataName : GoString :=
  [109, 101, 116, 97, 100, 97, 116, 97, 46, 110, 97, 109, 101]

/-- `NewController`: builds the selector, the list/watch over `configmaps` in
the namespace, the shared informer with the resync period, the controller, and
adds the three handlers to the informer the controller holds. -/
def NewController (fields : FieldsPkg) (clientset : Nat) (namespace_ configMapName : GoString) :
    Except Stop Controller := do
  let fieldSelector :=
    fields.SelectorString (fields.OneTermEqualSelector metadataName configMapName)
  let listWatcher : ListWatch :=
    ⟨"configmaps", namespace_, ← fields.ParseSelectorOrDie fieldSelector⟩
  let informer : Informer := ⟨listWatcher, defaultResyncPeriod, none, none, none⟩
  let controller : Controller := ⟨clientset, namespace_, configMapName, informer⟩
  let informer : Informer :=
    { informer with
      addFunc := some .handleAdd, updateFunc := some .handleUpdate,
      deleteFunc := some .handleDelete }
  return { controller with informer := informer }

/-- `Controller.Run`, given the outcome of the cache-sync wait. -/
def Run (ctx : Context) (synced : Bool) (waited : Nat) : M GoError := do
  let c := (← get).controller
  klogInfof "Starting controller for ConfigMap \x27%s\x27 in namespace \x27%s\x27"
    [.str c.configMapName, .str c.namespace_]
  goInformerRun
  if !(← waitForCacheSync synced waited) then
    return some "failed to sync cache"
  klogInfo "Controller cache synced, ready to process events"
  recvDone ctx
  klogInfo "Shutting down controller"
  return none

/-- `buildConfig`, with the loader calls it makes and what it returns. -/
def buildConfig (env : Loaders) (kubeconfig : GoString) :
    List LoaderCall × (Option RestConfig × GoError) :=
  if kubeconfig ≠ [] then
    ([.buildConfigFromFlags [] kubeconfig], env.BuildConfigFromFlags [] kubeconfig)
  else
    ([.inClusterConfig], env.InClusterConfig)

/-! ## The reconciliation engine

`main.go` only registers its handlers; the engine that decides which callback
runs when is the shared informer of client-go, which is not part of the
sources.  It is modelled here from sections 3, 4.1 and 4.2 of the
specification. -/

/-- Modelled from the spec: the ResourceIdentity (namespace, name) of a resource
state; the engine is missing from the sources. -/
def identity (cm : ConfigMap) : GoString × GoString :=
  (cm.Namespace, cm.Name)

/-- Modelled from the spec: the Resource Store of the missing engine, a table
with at most one entry per identity, kept as the list of its entries. -/
abbrev Store := List ConfigMap

/-- Modelled from the spec: `get(identity)` of the missing Resource Store. -/
def Store.get (s : Store) (id : GoString × GoString) : Option ConfigMap :=
  s.find? fun e => identity e = id

/-- Modelled from the spec: `remove(identity)` of the missing Resource Store. -/
def Store.remove (s : Store) (id : GoString × GoString) : Store :=
  s.filter fun e => identity e ≠ id

/-- Modelled from the spec: `put(entry)` of the missing Resource Store, which
replaces any existing entry for that identity. -/
def Store.put (s : Store) (e : ConfigMap) : Store :=
  e :: s.remove (identity e)

/-- Modelled from the spec: the TransitionEvent variants the missing
Reconciliation Loop constructs. -/
inductive TransitionEvent where
  | Added (entry : ConfigMap)
  | Updated (oldEntry newEntry : ConfigMap)
  | Deleted (entry : ConfigMap)
deriving DecidableEq, Repr

/-- Modelled from the spec: the identity a TransitionEvent of the missing engine
is about. -/
def TransitionEvent.identity : TransitionEvent → GoString × GoString
  | .Added entry => KubeThing.identity entry
  | .Updated _ newEntry => KubeThing.identity newEntry
  | .Deleted entry => KubeThing.identity entry

/-- Modelled from the spec: what the Change Source feeds the missing
Reconciliation Loop, a full list of the current state or a live notification
(an upsert carrying a resource state, or a deletion of an identity). -/
inductive SourceInput where
  | fullList (items : List ConfigMap)
  | upsert (cm : ConfigMap)
  | delete (id : GoString × GoString)
deriving DecidableEq, Repr

/-- Modelled from the spec: step 2 of the missing Reconciliation Loop for one
resource state. Absent: emit Added and insert. Present with a differing
version: emit Updated and replace. Present with the identical version:
discard. -/
def applyUpsert (s : Store) (cm : ConfigMap) : Store × List TransitionEvent :=
  match s.get (identity cm) with
  | none => (s.put cm, [.Added cm])
  | some old =>
    if old.ResourceVersion ≠ cm.ResourceVersion then (s.put cm, [.Updated old cm])
    else (s, [])

/-- Modelled from the spec: step 3 of the missing Reconciliation Loop. If an
entry exists for the identity, emit Deleted and remove it; if absent, discard. -/
def applyDelete (s : Store) (id : GoString × GoString) : Store × List TransitionEvent :=
  match s.get id with
  | some e => (s.remove id, [.Deleted e])
  | none => (s, [])

/-- Modelled from the spec: the missing Reconciliation Loop applying one kind of
step to a sequence of items in order, collecting the events in order. -/
def applyAll {α : Type} (f : Store → α → Store × List TransitionEvent) (s : Store) :
    List α → Store × List TransitionEvent
  | [] => (s, [])
  | a :: rest =>
    let r1 := f s a
    let r2 := applyAll f r1.1 rest
    (r2.1, r1.2 ++ r2.2)

/-- Modelled from the spec: steps 1 and 4 of the missing Reconciliation Loop,
the reconciliation against a full list. Every listed resource is merged as in
step 2; then every identity present in the Store but absent from the list is
an implicit deletion. -/
def reconcileList (s : Store) (items : List ConfigMap) : Store × List TransitionEvent :=
  let r1 := applyAll applyUpsert s items
  let stale := (r1.1.filter fun e => identity e ∉ items.map identity).map identity
  let r2 := applyAll applyDelete r1.1 stale
  (r2.1, r1.2 ++ r2.2)

/-- Modelled from the spec: one input of the missing Reconciliation Loop. -/
def reconcile (s : Store) : SourceInput → Store × List TransitionEvent
  | .fullList items => reconcileList s items
  | .upsert cm => applyUpsert s cm
  | .delete id => applyDelete s id

/-- Modelled from the spec: the missing Reconciliation Loop over a whole
sequence of list/watch inputs, from a given Store. -/
def runLoop (s : Store) (inputs : List SourceInput) : Store × List TransitionEvent :=
  applyAll reconcile s inputs

/-- Modelled from the spec: the missing Event Dispatcher, which hands each
TransitionEvent to the callback of its kind; the three callbacks are the ones
`NewController` registers. -/
def callbackOf : TransitionEvent → Callback
  | .Added _ => .handleAdd
  | .Updated _ _ => .handleUpdate
  | .Deleted _ => .handleDelete

/-- Modelled from the spec: the callbacks the registered handler observes for
one identity, in the order the missing Event Dispatcher delivers them. -/
def callbacksFor (id : GoString × GoString) (events : List TransitionEvent) : List Callback :=
  (events.filter fun ev => ev.identity = id).map callbackOf

/-! ## Statements of the specification -/

/-- Follows a sequence of callbacks for one identity through its lifecycle.
The flag says whether an incarnation is live. With none live only handleAdd may
come, which starts one; with one live handleUpdate keeps it and handleDelete
ends it. The result is the flag after the sequence, or `none` if a callback
came out of order. -/
def track : Bool → List Callback → Option Bool
  | live, [] => some live
  | false, .handleAdd :: rest => track true rest
  | true, .handleUpdate :: rest => track true rest
  | true, .handleDelete :: rest => track false rest
  | _, _ => none

/-- The ordering property: from the given starting flag, the callbacks form
incarnations Added, Updated*, Deleted, the last possibly unfinished. -/
def wellOrdered (live : Bool) (cbs : List Callback) : Bool :=
  (track live cbs).isSome


/-- The value the specification says is displayed for a data value: the value
itself up to 100 bytes, otherwise its first 100 bytes followed by `"..."`. -/
def truncatedForLog (value : GoString) : GoString :=
  if value.length ≤ 100 then value else value.take 100 ++ ellipsis

/-- The log line expected for one data entry. -/
def entryLine (kv : GoString × GoString) : LogCall :=
  .infof "    %s: %s" [.str kv.1, .str (truncatedForLog kv.2)]

/-- The lines expected from `logConfigMapData`. -/
def detailLines (cm : ConfigMap) : List LogCall :=
  [.infof "  ResourceVersion: %s" [.str cm.ResourceVersion],
   .infof "  Data entries: %d" [.int cm.Data.length]] ++ cm.Data.map entryLine

/-- The world after some more log calls. -/
def World.logged (w : World) (more : List LogCall) : World :=
  { w with log := w.log ++ more }

/-- The configuration options as the specification lists them: the single
target to watch, the interval between forced full reconciliations, and the
bound on parallel handler invocations. -/
structure EngineConfig where
  targetNamespace : GoString
  targetName : GoString
  resyncInterval : Option Duration
  dispatchConcurrency : Option Nat
deriving DecidableEq, Repr

/-- The resync period the specification asks for: the configured interval, and
the default only when none is given. -/
def specResyncPeriod (cfg : EngineConfig) : Duration :=
  cfg.resyncInterval.getD defaultResyncPeriod

/-- A controller for a configuration, built the only way the program builds
one: `NewController` takes the target namespace and name and has no parameter
for any other option. -/
def controllerFor (fields : FieldsPkg) (clientset : Nat) (cfg : EngineConfig) :
    Except Stop Controller :=
  NewController fields clientset cfg.targetNamespace cfg.targetName

/-- An instance of the selector functions to run examples with: a term renders
as field, `=`, value, and every string parses. -/
def plainFields : FieldsPkg :=
  ⟨fun field value => ⟨field ++ [61] ++ value⟩, fun sel => sel.rendered, fun s => .ok ⟨s⟩⟩

/-- Whether a log call is the UPDATED notification of `handleUpdate`. -/
def isUpdatedNotification : LogCall → Bool
  | .infof format _ => format == "ConfigMap UPDATED: %s/%s"
  | .info _ => false

/-- States of the byte-level recogniser of well-formed UTF-8 (RFC 3629, the
language Go's `utf8.ValidString` accepts): between characters, inside a
character with one, two or three continuation bytes missing, right after a
lead byte whose first continuation byte has a narrower range, or rejected. -/
inductive Utf8State where
  | start
  | tail1
  | tail2
  | tail3
  | afterE0
  | afterED
  | afterF0
  | afterF4
  | invalid
deriving DecidableEq, Repr

/-- One byte of UTF-8 recognition. -/
def utf8Step (s : Utf8State) (b : Byte) : Utf8State :=
  match s with
  | .start =>
    if b.val < 0x80 then .start
    else if 0xC2 ≤ b.val ∧ b.val ≤ 0xDF then .tail1
    else if b.val = 0xE0 then .afterE0
    else if b.val = 0xED then .afterED
    else if 0xE1 ≤ b.val ∧ b.val ≤ 0xEF then .tail2
    else if b.val = 0xF0 then .afterF0
    else if 0xF1 ≤ b.val ∧ b.val ≤ 0xF3 then .tail3
    else if b.val = 0xF4 then .afterF4
    else .invalid
  | .tail1 => if 0x80 ≤ b.val ∧ b.val ≤ 0xBF then .start else .invalid
  | .tail2 => if 0x80 ≤ b.val ∧ b.val ≤ 0xBF then .tail1 else .invalid
  | .tail3 => if 0x80 ≤ b.val ∧ b.val ≤ 0xBF then .tail2 else .invalid
  | .afterE0 => if 0xA0 ≤ b.val ∧ b.val ≤ 0xBF then .tail1 else .invalid
  | .afterED => if 0x80 ≤ b.val ∧ b.val ≤ 0x9F then .tail1 else .invalid
  | .afterF0 => if 0x90 ≤ b.val ∧ b.val ≤ 0xBF then .tail2 else .invalid
  | .afterF4 => if 0x80 ≤ b.val ∧ b.val ≤ 0x8F then .tail2 else .invalid
  | .invalid => .invalid

/-- Whether a Go string is valid UTF-8: recognition ends between characters. -/
def validUTF8 (s : GoString) : Bool :=
  s.foldl utf8Step .start == .start

/-- The string `"thing"`, the default namespace and ConfigMap name. -/
def thing : GoString := [116, 104, 105, 110, 103]

/-- A 101-byte value that is valid UTF-8: 99 times `a`, then U+00E9 encoded in
the two bytes C3 A9, so that byte offset 100 falls inside a character. -/
def splitValue : GoString := List.replicate 99 97 ++ [0xC3, 0xA9]

/-- A 102-byte value that is valid UTF-8: 100 times `a`, then U+00E9 encoded in
the two bytes C3 A9, so that byte offset 100 is a character boundary. -/
def boundaryValue : GoString := List.replicate 100 97 ++ [0xC3, 0xA9]

/-- The host `10.0.0.1` of an in-cluster configuration. -/
def clusterHost : GoString := [49, 48, 46, 48, 46, 48, 46, 49]

/-- An environment inside a cluster in which the kubeconfig files hold no
configuration: the file loader of client-go then falls back to the in-cluster
configuration, so both loaders return the configuration of the cluster. -/
def fallbackEnv : Loaders :=
  ⟨fun _ _ => (some ⟨clusterHost⟩, none), (some ⟨clusterHost⟩, none)⟩

/-- A ConfigMap `thing/thing` at the given version with the given data. -/
def thingConfigMap (version : GoString) (data : List (GoString × GoString)) : ConfigMap :=
  ⟨thing, thing, version, data, [], []⟩

/-- A controller as `NewController` leaves it for `thing/thing`, with a given selector. -/
def thingController (sel : Selector) : Controller :=
  ⟨0, thing, thing,
    ⟨⟨"configmaps", thing, sel⟩, defaultResyncPeriod,
      some .handleAdd, some .handleUpdate, some .handleDelete⟩⟩

/-- A world to run examples in: nothing logged yet, clock at zero. -/
def world0 : World := ⟨thingController ⟨[]⟩, [], 0, false⟩

/-! ## Lemmas on the handlers -/

theorem logEntries_run (es : List (GoString × GoString)) (w : World) :
    (logEntries es).run w = .ok ((), w.logged (es.map entryLine)) := by
  induction es generalizing w with
  | nil => simp [logEntries, World.logged, StateT.run, pure, StateT.pure, Except.pure]
  | cons e es ih =>
    obtain ⟨key, value⟩ := e
    by_cases h : value.length > 100
    · have h1 : 100 ≤ value.length := by omega
      have h2 : ¬ value.length ≤ 100 := by omega
      simp [logEntries, h, h1, h2, sliceTo, klogInfof, ih, World.logged, entryLine,
        truncatedForLog]
    · have h2 : value.length ≤ 100 := by omega
      simp [logEntries, h, h2, klogInfof, ih, World.logged, entryLine, truncatedForLog]

theorem logConfigMapData_run (cm : ConfigMap) (w : World) :
    (logConfigMapData cm).run w = .ok ((), w.logged (detailLines cm)) := by
  simp [logConfigMapData, klogInfof, logEntries_run, World.logged, detailLines]

theorem truncatedForLog_length (value : GoString) : (truncatedForLog value).length ≤ 103 := by
  unfold truncatedForLog
  split
  · omega
  · simp [ellipsis]

theorem detailLines_no_updated (cm : ConfigMap) :
    (detailLines cm).filter isUpdatedNotification = [] := by
  rw [List.filter_eq_nil_iff]
  intro l hl
  simp only [detailLines, List.mem_append, List.mem_cons, List.mem_map, List.mem_nil_iff,
    or_false] at hl
  rcases hl with (rfl | rfl) | ⟨kv, _, rfl⟩ <;> simp [isUpdatedNotification, entryLine]

theorem utf8_invalid_absorbs (s : GoString) : s.foldl utf8Step .invalid = .invalid := by
  induction s with
  | nil => rfl
  | cons b s ih => simpa [utf8Step] using ih

theorem utf8_after_ellipsis (st : Utf8State) :
    (ellipsis.foldl utf8Step st == .start) = (st == .start) := by
  cases st <;> decide

theorem validUTF8_append_ellipsis (s : GoString) :
    validUTF8 (s ++ ellipsis) = validUTF8 s := by
  simp only [validUTF8, List.foldl_append]
  exact utf8_after_ellipsis _

theorem Run_unsynced (ctx : Context) (waited : Nat) (w : World) :
    (Run ctx false waited).run w
      = .ok (some "failed to sync cache",
          { w.logged
              [.infof "Starting controller for ConfigMap \x27%s\x27 in namespace \x27%s\x27"
                [.str w.controller.configMapName, .str w.controller.namespace_]] with
            now := w.now + waited, informerRunning := true }) :=
  rfl

theorem Run_cancelled (t waited : Nat) (w : World) :
    (Run ⟨some t⟩ true waited).run w
      = .ok (none,
          { w.logged
              [.infof "Starting controller for ConfigMap \x27%s\x27 in namespace \x27%s\x27"
                [.str w.controller.configMapName, .str w.controller.namespace_],
               .info "Controller cache synced, ready to process events",
               .info "Shutting down controller"] with
            now := max (w.now + waited) t, informerRunning := true }) := by
  simp [Run, klogInfof, klogInfo, goInformerRun, waitForCacheSync, recvDone, World.logged]
  rfl

theorem Run_never_cancelled (waited : Nat) (w : World) :
    (Run ⟨none⟩ true waited).run w = .error .blockedForever :=
  rfl

/-! ## Lemmas on the reconciliation engine -/

/-- Whether the Store holds an entry for the identity. -/
def Store.contains (s : Store) (id : GoString × GoString) : Bool :=
  (s.get id).isSome

/-- A step function keeps every identity on its lifecycle: the callbacks it
causes for the identity lead from "held by the Store before" to "held by the
Store after". -/
def Tracks {α : Type} (f : Store → α → Store × List TransitionEvent) : Prop :=
  ∀ (s : Store) (a : α) (id : GoString × GoString),
    track (s.contains id) (callbacksFor id (f s a).2) = some ((f s a).1.contains id)

theorem Store.get_identity {s : Store} {id : GoString × GoString} {e : ConfigMap}
    (h : s.get id = some e) : identity e = id := by
  have := List.find?_some h
  simpa using this

theorem Store.get_remove (s : Store) (id id' : GoString × GoString) :
    (s.remove id').get id = if id = id' then none else s.get id := by
  simp only [Store.remove, Store.get, List.find?_filter]
  by_cases h : id = id'
  · subst h
    simp
  · have hp : (fun e : ConfigMap => (decide (identity e ≠ id') && decide (identity e = id)))
        = fun e => decide (identity e = id) := by
      funext e
      by_cases h2 : identity e = id
      · have : identity e ≠ id' := fun h3 => h (h2.symm.trans h3)
        simp [h2, this, h]
      · simp [h2]
    simp only [h, if_false]
    rw [← hp]
    congr 1
    funext a
    simp

theorem Store.get_put (s : Store) (e : ConfigMap) (id : GoString × GoString) :
    (s.put e).get id = if identity e = id then some e else s.get id := by
  by_cases h : identity e = id
  · simp [Store.put, Store.get, List.find?_cons, h]
  · have h' : id ≠ identity e := fun h2 => h h2.symm
    have := Store.get_remove s id (identity e)
    simp only [Store.get] at this
    simp [Store.put, Store.get, List.find?_cons, h, this, h']

theorem track_append (live : Bool) (xs ys : List Callback) :
    track live (xs ++ ys) = (track live xs).bind fun live' => track live' ys := by
  induction xs generalizing live with
  | nil => cases live <;> simp [track]
  | cons x xs ih =>
    cases live <;> cases x <;> simp [track, ih]

theorem callbacksFor_append (id : GoString × GoString) (xs ys : List TransitionEvent) :
    callbacksFor id (xs ++ ys) = callbacksFor id xs ++ callbacksFor id ys := by
  simp [callbacksFor]

theorem applyUpsert_tracks : Tracks applyUpsert := by
  intro s cm id
  unfold applyUpsert
  cases hg : s.get (identity cm) with
  | none =>
    by_cases h : identity cm = id
    · subst h
      simp [callbacksFor, TransitionEvent.identity, callbackOf, Store.contains, hg,
        Store.get_put, track]
    · simp [callbacksFor, TransitionEvent.identity, Store.contains, h, Store.get_put, track]
  | some old =>
    by_cases hv : old.ResourceVersion = cm.ResourceVersion
    · simp [hv, callbacksFor, track]
    · by_cases h : identity cm = id
      · subst h
        simp [hv, callbacksFor, TransitionEvent.identity, callbackOf, Store.contains, hg,
          Store.get_put, track]
      · simp [hv, callbacksFor, TransitionEvent.identity, Store.contains, h, Store.get_put,
          track]

theorem applyDelete_tracks : Tracks applyDelete := by
  intro s id' id
  unfold applyDelete
  cases hg : s.get id' with
  | none => simp [callbacksFor, track]
  | some e =>
    have he : identity e = id' := Store.get_identity hg
    by_cases h : id' = id
    · subst h
      simp [callbacksFor, TransitionEvent.identity, callbackOf, Store.contains, hg, he,
        Store.get_remove, track]
    · have h' : ¬ id = id' := fun h2 => h h2.symm
      simp [callbacksFor, TransitionEvent.identity, Store.contains, he, h, h',
        Store.get_remove, track]

theorem applyAll_tracks {α : Type} (f : Store → α → Store × List TransitionEvent)
    (hf : Tracks f) : Tracks (applyAll f) := by
  intro s items id
  induction items generalizing s with
  | nil => simp [applyAll, callbacksFor, track]
  | cons a rest ih =>
    simp only [applyAll, callbacksFor_append, track_append, hf s a id, Option.some_bind]
    exact ih (f s a).1

theorem reconcileList_tracks : Tracks reconcileList := by
  intro s items id
  simp only [reconcileList, callbacksFor_append, track_append,
    applyAll_tracks applyUpsert applyUpsert_tracks s items id, Option.some_bind]
  exact applyAll_tracks applyDelete applyDelete_tracks _ _ id

theorem reconcile_tracks : Tracks reconcile := by
  intro s input id
  cases input with
  | fullList items => exact reconcileList_tracks s items id
  | upsert cm => exact applyUpsert_tracks s cm id
  | delete id' => exact applyDelete_tracks s id' id

/-- The scenarios of the specification on the model of the engine: an initial
list with `thing/thing` at version 1 gives one Added; the same version again
gives nothing; version 2 gives one Updated from version 1 to version 2; a full
list without it gives one Deleted and leaves the Store empty. -/
theorem runLoop_scenarios :
    runLoop []
        [.fullList [thingConfigMap [49] [([97], [49])]],
         .upsert (thingConfigMap [49] [([97], [49])]),
         .upsert (thingConfigMap [50] [([97], [50])]),
         .fullList []]
      = ([],
         [.Added (thingConfigMap [49] [([97], [49])]),
          .Updated (thingConfigMap [49] [([97], [49])]) (thingConfigMap [50] [([97], [50])]),
          .Deleted (thingConfigMap [50] [([97], [50])])]) := by
  decide

/-! ## Theorems -/

/-- C1: when the old and the new ConfigMap carry the same ResourceVersion,
handleUpdate returns normally, logs nothing and leaves the whole world (the
controller, the log, the clock) exactly as it was, whatever the other fields
of the two objects are. -/
theorem handleUpdate_same_version_silent (old new : ConfigMap) (w : World)
    (h : old.ResourceVersion = new.ResourceVersion) :
    (handleUpdate (.configMap (some old)) (.configMap (some new))).run w = .ok ((), w) := by
  simp [handleUpdate, assertConfigMap, deref, h]
  rfl

/-- Witness of C1: two ConfigMaps with different data but the same version. -/
theorem handleUpdate_same_version_silent_witness :
    (thingConfigMap [49] [(thing, [49])]).ResourceVersion
        = (thingConfigMap [49] [(thing, [50])]).ResourceVersion
      ∧ (handleUpdate (.configMap (some (thingConfigMap [49] [(thing, [49])])))
          (.configMap (some (thingConfigMap [49] [(thing, [50])])))).run world0
        = .ok ((), world0) :=
  ⟨rfl, handleUpdate_same_version_silent _ _ world0 rfl⟩

/-- C2: when the old and the new ConfigMap carry different ResourceVersions,
handleUpdate returns normally and appends to the log one UPDATED notification
naming the namespace/name of the new object, followed by the detail lines
(ResourceVersion, number of data entries, one line per entry) of the new
object; the appended lines contain exactly one UPDATED notification and are
computed from the new object alone. -/
theorem handleUpdate_new_version_notifies (old new : ConfigMap) (w : World)
    (h : old.ResourceVersion ≠ new.ResourceVersion) :
    (handleUpdate (.configMap (some old)) (.configMap (some new))).run w
        = .ok ((), w.logged
            (.infof "ConfigMap UPDATED: %s/%s" [.str new.Namespace, .str new.Name]
              :: detailLines new))
      ∧ ((LogCall.infof "ConfigMap UPDATED: %s/%s" [.str new.Namespace, .str new.Name]
              :: detailLines new).filter isUpdatedNotification).length = 1 := by
  constructor
  · simp [handleUpdate, assertConfigMap, deref, h, klogInfof, logConfigMapData_run,
      World.logged]
  · have h0 : isUpdatedNotification
        (.infof "ConfigMap UPDATED: %s/%s" [.str new.Namespace, .str new.Name]) = true := by
      simp [isUpdatedNotification]
    rw [List.filter_cons_of_pos h0, detailLines_no_updated]
    rfl

/-- Witness of C2: `thing/thing` going from version 1 to version 2. -/
theorem handleUpdate_new_version_notifies_witness :
    (thingConfigMap [49] [(thing, [49])]).ResourceVersion
        ≠ (thingConfigMap [50] [(thing, [50])]).ResourceVersion
      ∧ (handleUpdate (.configMap (some (thingConfigMap [49] [(thing, [49])])))
          (.configMap (some (thingConfigMap [50] [(thing, [50])])))).run world0
        = .ok ((), world0.logged
            [.infof "ConfigMap UPDATED: %s/%s" [.str thing, .str thing],
             .infof "  ResourceVersion: %s" [.str [50]],
             .infof "  Data entries: %d" [.int 1],
             .infof "    %s: %s" [.str thing, .str [50]]]) :=
  ⟨by decide,
    (handleUpdate_new_version_notifies (thingConfigMap [49] [(thing, [49])])
      (thingConfigMap [50] [(thing, [50])]) world0 (by decide)).1⟩

/-- C3 (the code at the failing input): handed the final-state-unknown tombstone
that the informer delivers for a delete it only learns of by a re-list,
handleDelete panics in its type assertion, before logging anything; handed a
ConfigMap it returns normally and logs the one DELETED line naming the
namespace/name of that ConfigMap. -/
theorem handleDelete_tombstone_panics (key : GoString) (cm : ConfigMap) (w : World) :
    (handleDelete (.deletedFinalStateUnknown key (.configMap (some cm)))).run w
        = .error (.panic .typeAssertion)
      ∧ (handleDelete (.configMap (some cm))).run w
        = .ok ((), w.logged [.infof "ConfigMap DELETED: %s/%s" [.str cm.Namespace, .str cm.Name]]) :=
  ⟨rfl, rfl⟩

/-- C9: logConfigMapData never panics (the slice `value[:100]` is only taken
when the value is longer than 100 bytes) and appends the ResourceVersion line,
the entry count and then exactly one line per data entry, whose displayed
value is the value itself when it is at most 100 bytes long and otherwise its
first 100 bytes followed by three dots; a displayed value is at most 103
bytes long. -/
theorem logConfigMapData_truncates (cm : ConfigMap) (w : World) :
    (logConfigMapData cm).run w
        = .ok ((), w.logged
            ([.infof "  ResourceVersion: %s" [.str cm.ResourceVersion],
              .infof "  Data entries: %d" [.int cm.Data.length]]
              ++ cm.Data.map fun kv =>
                  .infof "    %s: %s" [.str kv.1,
                    .str (if kv.2.length ≤ 100 then kv.2 else kv.2.take 100 ++ [46, 46, 46])]))
      ∧ (detailLines cm).length = 2 + cm.Data.length
      ∧ ∀ value : GoString,
          (if value.length ≤ 100 then value else value.take 100 ++ [46, 46, 46]).length
            ≤ 103 := by
  refine ⟨?_, by simp [detailLines]; omega, fun value => truncatedForLog_length value⟩
  rw [logConfigMapData_run]
  rfl

/-- C10 refuted as stated: the 101-byte value `splitValue` is valid UTF-8, yet
the value logConfigMapData displays for it ends in the lone lead byte C3
followed by the three dots, which is not valid UTF-8. -/
theorem logged_value_splits_character :
    validUTF8 splitValue = true
      ∧ (logConfigMapData (thingConfigMap [49] [(thing, splitValue)])).run world0
          = .ok ((), world0.logged
              [.infof "  ResourceVersion: %s" [.str [49]],
               .infof "  Data entries: %d" [.int 1],
               .infof "    %s: %s"
                 [.str thing, .str (List.replicate 99 97 ++ [0xC3] ++ [46, 46, 46])]])
      ∧ validUTF8 (List.replicate 99 97 ++ [0xC3] ++ [46, 46, 46]) = false := by
  refine ⟨by decide, ?_, by decide⟩
  have hlines : detailLines (thingConfigMap [49] [(thing, splitValue)])
      = [.infof "  ResourceVersion: %s" [.str [49]],
         .infof "  Data entries: %d" [.int 1],
         .infof "    %s: %s"
           [.str thing, .str (List.replicate 99 97 ++ [0xC3] ++ [46, 46, 46])]] := by
    decide
  rw [logConfigMapData_run, hlines]

/-- C10 as amended: logConfigMapData appends the detail lines, and for a data
value that is valid UTF-8 the displayed value is valid UTF-8 exactly when the
value is at most 100 bytes long or its first 100 bytes are themselves valid
UTF-8 (byte offset 100 is a character boundary). -/
theorem logged_value_valid_iff_boundary (cm : ConfigMap) (w : World) :
    (logConfigMapData cm).run w = .ok ((), w.logged (detailLines cm))
      ∧ ∀ value : GoString, validUTF8 value = true →
          (validUTF8 (truncatedForLog value) = true
            ↔ (value.length ≤ 100 ∨ validUTF8 (value.take 100) = true)) := by
  refine ⟨logConfigMapData_run cm w, fun value hv => ?_⟩
  unfold truncatedForLog
  split
  · simp [*]
  · rename_i hlen
    rw [validUTF8_append_ellipsis]
    simp [hlen]

/-- Witness of the amended C10: the 102-byte value `boundaryValue`, carried in
the data of `thing/thing`, is valid UTF-8 and longer than 100 bytes, and its
first 100 bytes are valid UTF-8; logConfigMapData displays those 100 bytes
followed by the three dots, and that displayed value is valid UTF-8. -/
theorem logged_value_valid_iff_boundary_witness :
    validUTF8 boundaryValue = true
      ∧ ¬ boundaryValue.length ≤ 100
      ∧ validUTF8 (boundaryValue.take 100) = true
      ∧ (logConfigMapData (thingConfigMap [49] [(thing, boundaryValue)])).run world0
          = .ok ((), world0.logged
              [.infof "  ResourceVersion: %s" [.str [49]],
               .infof "  Data entries: %d" [.int 1],
               .infof "    %s: %s"
                 [.str thing, .str (List.replicate 100 97 ++ [46, 46, 46])]])
      ∧ validUTF8 (List.replicate 100 97 ++ [46, 46, 46]) = true := by
  have h := logged_value_valid_iff_boundary (thingConfigMap [49] [(thing, boundaryValue)])
    world0
  have hlines : detailLines (thingConfigMap [49] [(thing, boundaryValue)])
      = [.infof "  ResourceVersion: %s" [.str [49]],
         .infof "  Data entries: %d" [.int 1],
         .infof "    %s: %s"
           [.str thing, .str (List.replicate 100 97 ++ [46, 46, 46])]] := by
    decide
  have hshown : truncatedForLog boundaryValue = List.replicate 100 97 ++ [46, 46, 46] := by
    decide
  refine ⟨by decide, by decide, by decide, ?_, ?_⟩
  · rw [h.1, hlines]
  · rw [← hshown]
    exact (h.2 boundaryValue (by decide)).2 (Or.inr (by decide))

/-- C4: Run returns a non-nil error exactly when the cache-sync wait reports
false, and that error is "failed to sync cache"; when the wait reports true
and the context is cancelled at some instant, Run returns nil at an instant
not before the cancellation; when the wait reports true and the context is
never cancelled, Run never returns. -/
theorem Run_sync_gate (ctx : Context) (synced : Bool) (waited : Nat) (w : World) :
    (∀ r w', (Run ctx synced waited).run w = .ok (r, w') → (r ≠ none ↔ synced = false))
      ∧ (synced = false →
          ∃ w', (Run ctx synced waited).run w = .ok (some "failed to sync cache", w'))
      ∧ (synced = true → ∀ t, ctx.cancelAt = some t →
          ∃ w', (Run ctx synced waited).run w = .ok (none, w') ∧ t ≤ w'.now)
      ∧ (synced = true → ctx.cancelAt = none →
          (Run ctx synced waited).run w = .error .blockedForever) := by
  obtain ⟨cancelAt⟩ := ctx
  cases synced with
  | false =>
    refine ⟨fun r w' h => ?_, fun _ => ⟨_, Run_unsynced _ waited w⟩, by simp, by simp⟩
    rw [Run_unsynced] at h
    cases h
    simp
  | true =>
    cases cancelAt with
    | none =>
      refine ⟨fun r w' h => ?_, by simp, by simp, fun _ _ => Run_never_cancelled waited w⟩
      rw [Run_never_cancelled] at h
      cases h
    | some t =>
      refine ⟨fun r w' h => ?_, by simp, fun _ t' ht => ?_, by simp⟩
      · rw [Run_cancelled] at h
        cases h
        simp
      · cases ht
        exact ⟨_, Run_cancelled t waited w, le_max_right _ _⟩

/-- Witness of C4: the wait succeeds after 5 units and the context is cancelled
at instant 9, so Run returns nil at an instant from 9 on; with the wait failed
Run returns the error. -/
theorem Run_sync_gate_witness :
    (∃ w', (Run ⟨some 9⟩ true 5).run world0 = .ok (none, w') ∧ 9 ≤ w'.now)
      ∧ ∃ w', (Run ⟨some 9⟩ false 5).run world0 = .ok (some "failed to sync cache", w') :=
  ⟨(Run_sync_gate ⟨some 9⟩ true 5 world0).2.2.1 rfl 9 rfl,
    (Run_sync_gate ⟨some 9⟩ false 5 world0).2.1 rfl⟩

/-- C6 refuted as stated: for a configuration of `thing/thing` with a resync
interval of 60 seconds the specification asks for a resync period of 60
seconds, while the controller built for it hands 30 seconds to its informer;
and the controllers built for intervals of 10 and of 60 seconds use the same
resync period. -/
theorem resync_interval_not_configurable :
    specResyncPeriod ⟨thing, thing, some (60 * Second), none⟩ = 60 * Second
      ∧ (controllerFor plainFields 0 ⟨thing, thing, some (60 * Second), none⟩).map
            (fun c => c.informer.resyncPeriod) = .ok (30 * Second)
      ∧ (controllerFor plainFields 0 ⟨thing, thing, some (10 * Second), none⟩).map
            (fun c => c.informer.resyncPeriod)
          = (controllerFor plainFields 0 ⟨thing, thing, some (60 * Second), none⟩).map
            (fun c => c.informer.resyncPeriod) := by
  exact ⟨by decide, rfl, rfl⟩

/-- C6 as amended: every controller NewController returns hands the default
resync period, 30 seconds, to its informer, whatever the clientset, namespace
and ConfigMap name; so any two controllers use the same resync period. -/
theorem NewController_resync_default (fields : FieldsPkg) (clientset : Nat)
    (namespace_ configMapName : GoString) (c : Controller)
    (h : NewController fields clientset namespace_ configMapName = .ok c) :
    c.informer.resyncPeriod = defaultResyncPeriod
      ∧ defaultResyncPeriod = 30 * 1000000000 := by
  refine ⟨?_, by decide⟩
  unfold NewController at h
  cases hp : fields.ParseSelectorOrDie
      (fields.SelectorString (fields.OneTermEqualSelector metadataName configMapName)) with
  | error e => simp [hp, bind, Except.bind] at h
  | ok sel =>
    simp [hp, bind, Except.bind, pure, Except.pure] at h
    subst h
    rfl

/-- Witness of the amended C6: the controller built for `thing/thing`. -/
theorem NewController_resync_default_witness :
    NewController plainFields 0 thing thing
        = .ok (thingController ⟨metadataName ++ [61] ++ thing⟩)
      ∧ (thingController ⟨metadataName ++ [61] ++ thing⟩).informer.resyncPeriod
        = 30 * 1000000000 :=
  ⟨rfl,
    (NewController_resync_default plainFields 0 thing thing
      (thingController ⟨metadataName ++ [61] ++ thing⟩) rfl).1.trans (by decide)⟩

/-- C8 refuted as stated: in the environment `fallbackEnv` the kubeconfig string
`/` is non-empty and buildConfig calls the file loader for it, yet the config
it returns is the in-cluster configuration, the one the in-cluster loader
returns there. -/
theorem buildConfig_returns_in_cluster_config :
    ([47] : GoString) ≠ []
      ∧ (buildConfig fallbackEnv [47]).1 = [.buildConfigFromFlags [] [47]]
      ∧ (buildConfig fallbackEnv [47]).2 = fallbackEnv.InClusterConfig
      ∧ (buildConfig fallbackEnv [47]).2 = (some ⟨clusterHost⟩, none) :=
  ⟨by decide, rfl, rfl, rfl⟩

/-- C8 as amended: with a non-empty kubeconfig string buildConfig makes a single
loader call, to BuildConfigFromFlags with an empty master URL and that path,
and does not itself call InClusterConfig; with the empty string it makes a
single call to InClusterConfig; in both cases it returns the config and the
error of the loader it called, unchanged. Which configuration the file loader
yields is left to that loader. -/
theorem buildConfig_source (env : Loaders) (kubeconfig : GoString) :
    (kubeconfig ≠ [] →
        buildConfig env kubeconfig
          = ([.buildConfigFromFlags [] kubeconfig], env.BuildConfigFromFlags [] kubeconfig)
        ∧ LoaderCall.inClusterConfig ∉ (buildConfig env kubeconfig).1)
      ∧ (kubeconfig = [] →
          buildConfig env kubeconfig = ([.inClusterConfig], env.InClusterConfig)) := by
  constructor
  · intro h
    simp [buildConfig, h]
  · intro h
    simp [buildConfig, h]

/-- Witness of the amended C8: a one-byte path, in an environment whose file
loader yields a config and whose in-cluster loader fails; and the empty
string in the same environment. -/
theorem buildConfig_source_witness :
    ([47] : GoString) ≠ []
      ∧ buildConfig ⟨fun _ path => (some ⟨path⟩, none), (none, some "not in cluster")⟩ [47]
        = ([.buildConfigFromFlags [] [47]], (some ⟨[47]⟩, none))
      ∧ buildConfig ⟨fun _ path => (some ⟨path⟩, none), (none, some "not in cluster")⟩ []
        = ([.inClusterConfig], (none, some "not in cluster")) :=
  ⟨by decide,
    ((buildConfig_source ⟨fun _ path => (some ⟨path⟩, none), (none, some "not in cluster")⟩
      [47]).1 (by decide)).1,
    (buildConfig_source ⟨fun _ path => (some ⟨path⟩, none), (none, some "not in cluster")⟩
      []).2 rfl⟩

/-- C7: for every sequence of list/watch inputs and every identity, the
callbacks the registered handler observes for that identity, starting from the
empty Store, follow the lifecycle: each incarnation is handleAdd, then any
number of handleUpdate, then handleDelete, the last incarnation possibly
unfinished. So the first callback is never handleUpdate or handleDelete, and
after a handleDelete the next callback, if any, is the handleAdd of a new
incarnation. -/
theorem callbacks_follow_lifecycle (inputs : List SourceInput) (id : GoString × GoString) :
    wellOrdered false (callbacksFor id (runLoop [] inputs).2) = true
      ∧ (callbacksFor id (runLoop [] inputs).2).head? ≠ some .handleUpdate
      ∧ (callbacksFor id (runLoop [] inputs).2).head? ≠ some .handleDelete := by
  have h := applyAll_tracks reconcile reconcile_tracks [] inputs id
  have h0 : Store.contains [] id = false := rfl
  rw [h0] at h
  change track false (callbacksFor id (runLoop [] inputs).2) = _ at h
  refine ⟨by simp [wellOrdered, h], ?_, ?_⟩ <;>
  · intro hh
    cases hc : callbacksFor id (runLoop [] inputs).2 with
    | nil => simp [hc] at hh
    | cons c cs =>
      rw [hc] at h hh
      simp at hh
      subst hh
      simp [track] at h

end KubeThing
